import Mathlib

/-!
# Verification of the Hotline protocol client core

A shallow embedding, in Lean 4, of the protocol core of the `hotline`
repository (a Rust client for the 1990s Hotline protocol), together with
proofs and refutations of the specification's claims about it.

Bytes are modelled as `Nat`s below 256, byte buffers as `List Nat`,
Rust's `uN` machine integers as `Nat` with explicit `% 2^N` at the points
where the source casts or wraps.  Fallible Rust functions returning
`Result<T, String>` are modelled as `Except String T`.

The module `protocol/constants.rs` is not part of the provided sources;
the numeric field-type and transaction-type tags it defines, the
20-byte header constant, and the `"HTXF"` magic are modelled from the
specification (which fixes them as stable wire values).
-/

namespace Hotline

set_option maxHeartbeats 1000000

/-- Big-endian byte pair of a 16-bit value, as written by Rust's
`(v as u16).to_be_bytes()`; the `% 256`/`% 65536` truncation of the `as u16`
cast is built in. -/
def u16be (v : Nat) : List Nat := [v / 256 % 256, v % 256]

/-- Big-endian bytes of a 32-bit value, as written by Rust's
`(v as u32).to_be_bytes()`; truncation is built in. -/
def u32be (v : Nat) : List Nat :=
  [v / 16777216 % 256, v / 65536 % 256, v / 256 % 256, v % 256]

/-- `data[i]` on a byte buffer.  The source only indexes after bounds
checks, so the default value 0 is never observable. -/
def byte (data : List Nat) (i : Nat) : Nat := data.getD i 0

/-- `u16::from_be_bytes([data[i], data[i+1]])`. -/
def readU16 (data : List Nat) (i : Nat) : Nat := byte data i * 256 + byte data (i + 1)

/-- `u32::from_be_bytes([data[i], .., data[i+3]])`. -/
def readU32 (data : List Nat) (i : Nat) : Nat :=
  byte data i * 16777216 + byte data (i + 1) * 65536 + byte data (i + 2) * 256
    + byte data (i + 3)

/-- Modelled from the spec: `protocol/constants.rs` is absent from the
provided sources; §3 of the spec fixes the transaction header at 20 bytes. -/
def TRANSACTION_HEADER_SIZE : Nat := 20

/-- Modelled from the spec: the `"HTXF"` file-transfer magic
(`48 54 58 46`), from `constants.rs` which is absent from the sources. -/
def FILE_TRANSFER_ID : List Nat := [0x48, 0x54, 0x58, 0x46]

/-- Modelled from the spec: field-type wire tags (`FieldType` in the absent
`constants.rs`).  The spec states the wire values are stable 16-bit codes;
the numeric values are the documented Hotline codes (the source's own debug
strings confirm `Data` = 101 and `ServerAgreement` = 150).  In this
embedding a field type is carried as its wire tag, so the `FieldType::from`
/ `as u16` pair of the source is the identity on known tags. -/
def ftErrorText : Nat := 100
def ftData : Nat := 101
def ftUserName : Nat := 102
def ftUserId : Nat := 103
def ftUserIconId : Nat := 104
def ftUserLogin : Nat := 105
def ftUserPassword : Nat := 106
def ftReferenceNumber : Nat := 107
def ftTransferSize : Nat := 108
def ftChatOptions : Nat := 109
def ftUserFlags : Nat := 112
def ftOptions : Nat := 113
def ftServerAgreement : Nat := 150
def ftVersionNumber : Nat := 160
def ftServerName : Nat := 162
def ftFileNameWithInfo : Nat := 200
def ftFileName : Nat := 201
def ftFilePath : Nat := 202
def ftUserNameWithInfo : Nat := 300

/-- Modelled from the spec: transaction-type wire tags (`TransactionType`
in the absent `constants.rs`), documented Hotline codes. -/
def ttLogin : Nat := 107
def ttAgreed : Nat := 121
def ttGetUserNameList : Nat := 300
def ttGetFileNameList : Nat := 200

/-- `TransactionField` (transaction.rs): a tagged byte payload.  The field
type is carried as its 16-bit wire tag. -/
structure TransactionField where
  field_type : Nat
  data : List Nat
  deriving DecidableEq, Repr

/-- `TransactionField::encode` (transaction.rs lines 72-78). -/
def TransactionField.encode (f : TransactionField) : List Nat :=
  u16be f.field_type ++ u16be f.data.length ++ f.data

/-- `Transaction` (transaction.rs): 20-byte header plus field list. -/
structure Transaction where
  flags : Nat
  is_reply : Nat
  transaction_type : Nat
  id : Nat
  error_code : Nat
  fields : List TransactionField
  deriving DecidableEq, Repr

/-- `Transaction::get_field` (transaction.rs lines 107-111): first field
with the given type tag. -/
def Transaction.get_field (t : Transaction) (ft : Nat) : Option TransactionField :=
  t.fields.find? (fun f => f.field_type == ft)

/-- The exact (untruncated) value `2 + Σ (4 + field.len)` that
`calculate_data_size` computes in `usize` arithmetic before the `as u32`
cast. -/
def Transaction.data_size_raw (t : Transaction) : Nat :=
  2 + (t.fields.map (fun f => 4 + f.data.length)).sum

/-- `Transaction::calculate_data_size` (transaction.rs lines 114-122):
the sum is computed in `usize` and then truncated by `size as u32`. -/
def Transaction.calculate_data_size (t : Transaction) : Nat :=
  t.data_size_raw % 4294967296

/-- The concatenation of the encoded fields, as written by `encode`'s
`for field in &self.fields { buf.extend_from_slice(&field.encode()) }`. -/
def encFields (fs : List TransactionField) : List Nat :=
  (fs.map TransactionField.encode).flatten

/-- `Transaction::encode` (transaction.rs lines 125-148): 20-byte header
(`total_size` and `data_size` both carry `calculate_data_size`), then the
16-bit field count, then the encoded fields. -/
def Transaction.encode (t : Transaction) : List Nat :=
  [t.flags, t.is_reply] ++ u16be t.transaction_type ++ u32be t.id
    ++ u32be t.error_code
    ++ u32be t.calculate_data_size   -- total_size
    ++ u32be t.calculate_data_size   -- data_size
    ++ u16be t.fields.length
    ++ encFields t.fields

/-- The field-reading loop of `Transaction::decode` (transaction.rs lines
183-203): `for _ in 0..field_count` with two `break`s, one when the 4-byte
field header would overrun `field_data`, one when the declared payload
would. -/
def decode_fields (field_data : List Nat) : Nat → Nat → List TransactionField
  | _offset, 0 => []
  | offset, n + 1 =>
    if field_data.length < offset + 4 then []
    else
      let field_type_raw := readU16 field_data offset
      let field_size := readU16 field_data (offset + 2)
      if field_data.length < (offset + 4) + field_size then []
      else
        { field_type := field_type_raw,
          data := (field_data.drop (offset + 4)).take field_size }
          :: decode_fields field_data ((offset + 4) + field_size) n

/-- `Transaction::decode` (transaction.rs lines 151-207).  The source's
early `return Ok(transaction)` when `field_data.len() < 2` is rendered as
the inner branch yielding no fields; the constructed transaction is the
same. -/
def Transaction.decode (data : List Nat) : Except String Transaction :=
  if data.length < TRANSACTION_HEADER_SIZE then
    .error "Transaction data too short"
  else
    let flags := byte data 0
    let is_reply := byte data 1
    let transaction_type := readU16 data 2
    let id := readU32 data 4
    let error_code := readU32 data 8
    -- total_size at offset 12 is read by the source but never used
    let data_size := readU32 data 16
    let fields :=
      if 0 < data_size ∧ TRANSACTION_HEADER_SIZE + 2 ≤ data.length then
        let field_data := data.drop TRANSACTION_HEADER_SIZE
        if field_data.length < 2 then []
        else decode_fields field_data 2 (readU16 field_data 0)
      else []
    .ok { flags := flags, is_reply := is_reply, transaction_type := transaction_type,
          id := id, error_code := error_code, fields := fields }

/-- Well-formedness of a field: the bounds guaranteed by the Rust types
(`u16` tag within the known 16-bit tag space, `Vec<u8>` payload of at most
65535 bytes as required by the claim, bytes below 256). -/
def TransactionField.WF (f : TransactionField) : Prop :=
  f.field_type < 65536 ∧ f.data.length ≤ 65535 ∧ ∀ b ∈ f.data, b < 256

/-- Well-formedness of a frame: the bounds guaranteed by the Rust field
types (`u8`, `u16`, `u32`), at most 65535 fields, each field well-formed. -/
def Transaction.WF (t : Transaction) : Prop :=
  t.flags < 256 ∧ t.is_reply < 256 ∧ t.transaction_type < 65536 ∧
  t.id < 4294967296 ∧ t.error_code < 4294967296 ∧
  t.fields.length ≤ 65535 ∧ ∀ f ∈ t.fields, f.WF

instance (f : TransactionField) : Decidable f.WF := by
  unfold TransactionField.WF; infer_instance

instance (t : Transaction) : Decidable t.WF := by
  unfold Transaction.WF; infer_instance

/-! ## Codec lemmas -/

theorem encFields_nil : encFields [] = [] := rfl

theorem encFields_cons (f : TransactionField) (fs : List TransactionField) :
    encFields (f :: fs) = f.encode ++ encFields fs := by
  simp [encFields]

theorem encode_field_length (f : TransactionField) :
    f.encode.length = 4 + f.data.length := by
  simp [TransactionField.encode, u16be]; omega

theorem encFields_length (fs : List TransactionField) :
    (encFields fs).length = (fs.map (fun f => 4 + f.data.length)).sum := by
  induction fs with
  | nil => rfl
  | cons f fs ih => simp [encFields_cons, encode_field_length, ih]

theorem byte_drop (l : List Nat) (i j : Nat) : byte (l.drop i) j = byte l (i + j) := by
  simp [byte, List.getD, List.getElem?_drop]

/-- `decode` on any buffer presented as 20 explicit header bytes plus a
remainder: the header is reconstructed big-endian and the field block is
parsed from the remainder exactly when the declared `data_size` is nonzero
and the remainder holds at least the 2-byte field count. -/
theorem decode_cons20 (b0 b1 b2 b3 b4 b5 b6 b7 b8 b9 b10 b11 b12 b13 b14 b15 b16 b17 b18 b19 : Nat)
    (rest : List Nat) :
    Transaction.decode (b0 :: b1 :: b2 :: b3 :: b4 :: b5 :: b6 :: b7 :: b8 :: b9 :: b10 :: b11
        :: b12 :: b13 :: b14 :: b15 :: b16 :: b17 :: b18 :: b19 :: rest) =
      Except.ok
        { flags := b0, is_reply := b1,
          transaction_type := b2 * 256 + b3,
          id := b4 * 16777216 + b5 * 65536 + b6 * 256 + b7,
          error_code := b8 * 16777216 + b9 * 65536 + b10 * 256 + b11,
          fields :=
            if 0 < b16 * 16777216 + b17 * 65536 + b18 * 256 + b19 ∧ 2 ≤ rest.length then
              decode_fields rest 2 (readU16 rest 0)
            else [] } := by
  unfold Transaction.decode
  rw [if_neg (by simp [TRANSACTION_HEADER_SIZE])]
  dsimp only
  simp only [Except.ok.injEq, Transaction.mk.injEq, byte, readU16, readU32]
  refine ⟨by simp, by simp, by simp, by simp, by simp, ?_⟩
  simp only [TRANSACTION_HEADER_SIZE, List.length_cons, List.drop_succ_cons, List.drop_zero]
  by_cases hds : 0 < b16 * 16777216 + b17 * 65536 + b18 * 256 + b19
  · by_cases hlen : 2 ≤ rest.length
    · rw [if_pos, if_neg, if_pos ⟨hds, hlen⟩]
      · simp
        omega
      · refine ⟨by simpa using hds, by simp; omega⟩
    · rw [if_neg (by simp_all), if_neg (by tauto)]
  · rw [if_neg (by simp_all), if_neg (by tauto)]

/-- The field-parsing loop consumes a run of completely encoded fields (of
in-range tag and length) from the buffer, in order, and continues with the
remaining count budget at the remnant. -/
theorem decode_fields_append (R : List Nat) (fs : List TransactionField)
    (hwf : ∀ f ∈ fs, f.field_type < 65536 ∧ f.data.length ≤ 65535) :
    ∀ (fd : List Nat) (offset n : Nat),
      offset ≤ fd.length →
      fd.drop offset = encFields fs ++ R →
      decode_fields fd offset (fs.length + n) =
        fs ++ decode_fields fd (offset + (encFields fs).length) n := by
  induction fs with
  | nil => intro fd offset n _ _; simp [encFields_nil]
  | cons f fs ih =>
    intro fd offset n hoff h
    have hlen_drop : (fd.drop offset).length = fd.length - offset := by simp
    have henc : f.encode.length = 4 + f.data.length := encode_field_length f
    have hdlen : (encFields (f :: fs) ++ R).length
        = 4 + f.data.length + ((encFields fs).length + R.length) := by
      simp [encFields_cons, henc]
    have hsz : fd.length - offset = 4 + f.data.length + ((encFields fs).length + R.length) := by
      rw [← hlen_drop, h, hdlen]
    have hft : f.field_type < 65536 := (hwf f (by simp)).1
    have hdl : f.data.length ≤ 65535 := (hwf f (by simp)).2
    have hcount : (f :: fs).length + n = (fs.length + n) + 1 := by
      simp [List.length_cons]; omega
    rw [hcount]
    simp only [decode_fields]
    have hguard1 : ¬ (fd.length < offset + 4) := by omega
    rw [if_neg hguard1]
    have hdropeq : fd.drop offset
        = (f.field_type / 256 % 256) :: (f.field_type % 256)
          :: (f.data.length / 256 % 256) :: (f.data.length % 256)
          :: (f.data ++ (encFields fs ++ R)) := by
      rw [h, encFields_cons]
      simp [TransactionField.encode, u16be]
    have hb0 : byte fd offset = f.field_type / 256 % 256 := by
      rw [← Nat.add_zero offset, ← byte_drop, hdropeq]; rfl
    have hb1 : byte fd (offset + 1) = f.field_type % 256 := by
      rw [← byte_drop, hdropeq]; rfl
    have hb2 : byte fd (offset + 2) = f.data.length / 256 % 256 := by
      rw [← byte_drop, hdropeq]; rfl
    have hb3 : byte fd (offset + 2 + 1) = f.data.length % 256 := by
      have h3 : offset + 2 + 1 = offset + 3 := by omega
      rw [h3, ← byte_drop, hdropeq]; rfl
    have hty : readU16 fd offset = f.field_type := by
      rw [readU16, hb0, hb1]; omega
    have hsizeeq : readU16 fd (offset + 2) = f.data.length := by
      rw [readU16, hb2, hb3]; omega
    rw [hty, hsizeeq]
    have hguard2 : ¬ (fd.length < offset + 4 + f.data.length) := by omega
    rw [if_neg hguard2]
    have hdrop4 : fd.drop (offset + 4) = f.data ++ (encFields fs ++ R) := by
      have h4 : fd.drop (offset + 4) = (fd.drop offset).drop 4 := by
        rw [List.drop_drop]
      rw [h4, hdropeq]
      rfl
    have htake : (fd.drop (offset + 4)).take f.data.length = f.data := by
      rw [hdrop4, List.take_left]
    have hdropnext : fd.drop (offset + 4 + f.data.length) = encFields fs ++ R := by
      have h1 : fd.drop (offset + 4 + f.data.length)
          = (fd.drop (offset + 4)).drop f.data.length := by
        rw [List.drop_drop]
      rw [h1, hdrop4, List.drop_left]
    have hrec := ih (fun g hg => hwf g (by simp [hg])) fd (offset + 4 + f.data.length) n
      (by omega) hdropnext
    rw [htake, hrec]
    have hoffeq : offset + 4 + f.data.length + (encFields fs).length
        = offset + (encFields (f :: fs)).length := by
      simp [encFields_cons, henc]
      omega
    rw [hoffeq]
    rfl

/-- The field-parsing loop stops (without failing) at a remnant whose next
field header or declared payload would overrun the buffer. -/
theorem decode_fields_stop (fd : List Nat) (offset n : Nat)
    (h : fd.length < offset + 4 + readU16 fd (offset + 2)) :
    decode_fields fd offset n = [] := by
  cases n with
  | zero => rfl
  | succ n =>
    simp only [decode_fields]
    by_cases h4 : fd.length < offset + 4
    · rw [if_pos h4]
    · rw [if_neg h4, if_pos (by omega)]

theorem encode_length (t : Transaction) : t.encode.length = 20 + t.data_size_raw := by
  simp [Transaction.encode, u16be, u32be, encFields_length, Transaction.data_size_raw]
  omega

/-- Encode/decode round trip for any well-formed frame whose computed
`data_size` does not truncate to zero in the `as u32` cast. -/
theorem decode_encode (t : Transaction) (hwf : t.WF) (hds : t.calculate_data_size ≠ 0) :
    Transaction.decode t.encode = Except.ok t := by
  obtain ⟨hflags, hreply, htt, hid, herr, hcnt, hfields⟩ := hwf
  set ds := t.calculate_data_size with hdsdef
  have hds32 : ds < 4294967296 := Nat.mod_lt _ (by norm_num)
  have hform : t.encode = t.flags :: t.is_reply
      :: (t.transaction_type / 256 % 256) :: (t.transaction_type % 256)
      :: (t.id / 16777216 % 256) :: (t.id / 65536 % 256) :: (t.id / 256 % 256) :: (t.id % 256)
      :: (t.error_code / 16777216 % 256) :: (t.error_code / 65536 % 256)
      :: (t.error_code / 256 % 256) :: (t.error_code % 256)
      :: (ds / 16777216 % 256) :: (ds / 65536 % 256) :: (ds / 256 % 256) :: (ds % 256)
      :: (ds / 16777216 % 256) :: (ds / 65536 % 256) :: (ds / 256 % 256) :: (ds % 256)
      :: (u16be t.fields.length ++ encFields t.fields) := by
    simp [Transaction.encode, u16be, u32be]
  rw [hform, decode_cons20]
  have hrest : (u16be t.fields.length ++ encFields t.fields).length
      = 2 + (encFields t.fields).length := by simp [u16be]; omega
  have hcond : 0 < ds / 16777216 % 256 * 16777216 + ds / 65536 % 256 * 65536
      + ds / 256 % 256 * 256 + ds % 256
      ∧ 2 ≤ (u16be t.fields.length ++ encFields t.fields).length := by
    constructor
    · omega
    · rw [hrest]; omega
  rw [if_pos hcond]
  have hcount : readU16 (u16be t.fields.length ++ encFields t.fields) 0 = t.fields.length := by
    have h0 : byte (u16be t.fields.length ++ encFields t.fields) 0
        = t.fields.length / 256 % 256 := rfl
    have h1 : byte (u16be t.fields.length ++ encFields t.fields) 1
        = t.fields.length % 256 := rfl
    rw [readU16, h0, h1]
    omega
  rw [hcount]
  have hdropeq : (u16be t.fields.length ++ encFields t.fields).drop 2
      = encFields t.fields ++ [] := by
    simp [u16be]
  have hfieldswf : ∀ f ∈ t.fields, f.field_type < 65536 ∧ f.data.length ≤ 65535 := by
    intro f hf
    exact ⟨(hfields f hf).1, (hfields f hf).2.1⟩
  have hparse := decode_fields_append [] t.fields hfieldswf
    (u16be t.fields.length ++ encFields t.fields) 2 0 (by rw [hrest]; omega) hdropeq
  have hzero : t.fields.length + 0 = t.fields.length := rfl
  rw [hzero] at hparse
  rw [hparse]
  simp [decode_fields]
  obtain ⟨flags, is_reply, tt, id, err, fields⟩ := t
  simp_all
  omega

/-! ## Claim C1 — encode/decode round trip -/

/-- A frame whose computed `data_size` is exactly `2^32` (so the `as u32`
cast in `calculate_data_size` truncates it to zero): 65533 maximal fields
of 65535 bytes plus one 3-byte field, all with the known `Data` tag (101),
on a `Login`-typed frame.  `2 + 65533*(4+65535) + (4+3) = 4294967296`. -/
def oversizedField : TransactionField := ⟨ftData, List.replicate 65535 0⟩

def oversizedFrame : Transaction :=
  ⟨0, 0, ttLogin, 1, 0, List.replicate 65533 oversizedField ++ [⟨ftData, [0, 0, 0]⟩]⟩

theorem oversizedFrame_fields :
    oversizedFrame.fields
      = List.replicate 65533 oversizedField ++ [⟨ftData, [0, 0, 0]⟩] := rfl

theorem oversizedField_entry : 4 + oversizedField.data.length = 65539 := by
  rw [show oversizedField.data = List.replicate 65535 0 from rfl, List.length_replicate]

theorem map_entry_replicate (n : Nat) :
    (List.replicate n oversizedField).map (fun f => 4 + f.data.length)
      = List.replicate n 65539 := by
  rw [List.map_replicate]
  exact congrArg (List.replicate n) oversizedField_entry

theorem raw_of_replicate (n : Nat) :
    2 + ((List.replicate n oversizedField ++ ([⟨ftData, [0, 0, 0]⟩] : List TransactionField)).map
        (fun f => 4 + f.data.length)).sum
      = 2 + (n * 65539 + 7) := by
  rw [List.map_append, List.sum_append, map_entry_replicate, List.sum_replicate, smul_eq_mul,
    List.map_cons, List.map_nil, List.sum_cons, List.sum_nil]
  norm_num

theorem oversizedFrame_raw : oversizedFrame.data_size_raw = 4294967296 := by
  rw [Transaction.data_size_raw, oversizedFrame_fields, raw_of_replicate]

theorem oversizedFrame_ds : oversizedFrame.calculate_data_size = 0 := by
  rw [Transaction.calculate_data_size, oversizedFrame_raw]

theorem oversizedFrame_wf : oversizedFrame.WF := by
  refine ⟨by decide, by decide, by decide, by decide, by decide, ?_, ?_⟩
  · rw [oversizedFrame_fields, List.length_append, List.length_replicate]
    norm_num
  · intro f hf
    rw [oversizedFrame_fields] at hf
    rcases List.mem_append.1 hf with hl | hr
    · obtain ⟨-, rfl⟩ := List.mem_replicate.1 hl
      refine ⟨by norm_num [oversizedField, ftData], ?_, fun b hb => ?_⟩
      · rw [show oversizedField.data = List.replicate 65535 0 from rfl,
          List.length_replicate]
      · rw [show oversizedField.data = List.replicate 65535 0 from rfl] at hb
        rw [List.eq_of_mem_replicate hb]
        norm_num
    · rw [List.mem_singleton.1 hr]
      exact ⟨by norm_num [ftData], by norm_num, by decide⟩

theorem oversizedFrame_decodes_empty :
    Transaction.decode (Transaction.encode oversizedFrame)
      = Except.ok ⟨0, 0, ttLogin, 1, 0, []⟩ := by
  have hform : Transaction.encode oversizedFrame
      = 0 :: 0 :: 0 :: 107 :: 0 :: 0 :: 0 :: 1 :: 0 :: 0 :: 0 :: 0
        :: 0 :: 0 :: 0 :: 0 :: 0 :: 0 :: 0 :: 0
        :: (u16be oversizedFrame.fields.length ++ encFields oversizedFrame.fields) := by
    rw [Transaction.encode, oversizedFrame_ds]
    rfl
  rw [hform, decode_cons20]
  norm_num [ttLogin]

/-- C1, counterexample: the well-formed frame `oversizedFrame` (all field
payloads ≤ 65535 bytes, 65534 ≤ 65535 fields, known tags) does NOT survive
the round trip: its computed data size `2^32` truncates to a zero
`data_size` header, so `decode` returns a frame with no fields. -/
theorem c1_roundtrip_counterexample :
    oversizedFrame.WF ∧
      Transaction.decode (Transaction.encode oversizedFrame) ≠ Except.ok oversizedFrame := by
  refine ⟨oversizedFrame_wf, fun h => ?_⟩
  rw [oversizedFrame_decodes_empty] at h
  have hfe : ([] : List TransactionField) = oversizedFrame.fields :=
    congrArg Transaction.fields (Except.ok.inj h)
  have hlen := congrArg List.length hfe
  rw [List.length_nil, oversizedFrame_fields, List.length_append, List.length_replicate] at hlen
  norm_num at hlen

/-- C1 (amended): for every well-formed frame `t` whose computed data size
`2 + Σ (4 + field.len)` is nonzero modulo `2^32` (any frame whose field
block honestly fits the 32-bit `data_size` header satisfies this),
`decode (encode t) = t`, and unconditionally `encode t` has length exactly
`20 + (2 + Σ (4 + field.len))`. -/
theorem c1_roundtrip_amended (t : Transaction) (hwf : t.WF)
    (hnz : t.data_size_raw % 4294967296 ≠ 0) :
    Transaction.decode t.encode = Except.ok t ∧
      t.encode.length = 20 + (2 + (t.fields.map (fun f => 4 + f.data.length)).sum) :=
  ⟨decode_encode t hwf hnz, encode_length t⟩

theorem c1_roundtrip_amended_witness :
    Transaction.decode (Transaction.encode ⟨0, 0, 107, 1, 0, [⟨102, [103, 117, 101, 115, 116]⟩]⟩)
        = Except.ok ⟨0, 0, 107, 1, 0, [⟨102, [103, 117, 101, 115, 116]⟩]⟩ ∧
      (Transaction.encode ⟨0, 0, 107, 1, 0, [⟨102, [103, 117, 101, 115, 116]⟩]⟩).length
        = 20 + (2 + (([⟨102, [103, 117, 101, 115, 116]⟩] : List TransactionField).map
            (fun f => 4 + f.data.length)).sum) :=
  c1_roundtrip_amended ⟨0, 0, 107, 1, 0, [⟨102, [103, 117, 101, 115, 116]⟩]⟩
    (by decide) (by decide)

/-! ## Claim C5 — permissive field parsing -/

/-- A frame buffer consisting of `t`'s header (as `encode` writes it), a
declared field count `count`, `t`'s complete encoded fields, and a trailing
remnant `junk` — the shape a frame takes when its declared field count
exceeds the fields actually present in the buffer. -/
def frameWithJunk (t : Transaction) (count : Nat) (junk : List Nat) : List Nat :=
  [t.flags, t.is_reply] ++ u16be t.transaction_type ++ u32be t.id
    ++ u32be t.error_code
    ++ u32be t.calculate_data_size
    ++ u32be t.calculate_data_size
    ++ u16be count
    ++ (encFields t.fields ++ junk)

theorem decode_frameWithJunk (t : Transaction) (count : Nat) (junk : List Nat)
    (hwf : t.WF) (hds : t.calculate_data_size ≠ 0)
    (hc1 : t.fields.length ≤ count) (hc2 : count ≤ 65535)
    (hj : junk.length < 4 + readU16 junk 2) :
    Transaction.decode (frameWithJunk t count junk) = Except.ok t := by
  obtain ⟨hflags, hreply, htt, hid, herr, hcnt, hfields⟩ := hwf
  set ds := t.calculate_data_size with hdsdef
  have hds32 : ds < 4294967296 := Nat.mod_lt _ (by norm_num)
  have hform : frameWithJunk t count junk = t.flags :: t.is_reply
      :: (t.transaction_type / 256 % 256) :: (t.transaction_type % 256)
      :: (t.id / 16777216 % 256) :: (t.id / 65536 % 256) :: (t.id / 256 % 256) :: (t.id % 256)
      :: (t.error_code / 16777216 % 256) :: (t.error_code / 65536 % 256)
      :: (t.error_code / 256 % 256) :: (t.error_code % 256)
      :: (ds / 16777216 % 256) :: (ds / 65536 % 256) :: (ds / 256 % 256) :: (ds % 256)
      :: (ds / 16777216 % 256) :: (ds / 65536 % 256) :: (ds / 256 % 256) :: (ds % 256)
      :: (u16be count ++ (encFields t.fields ++ junk)) := by
    simp [frameWithJunk, u16be, u32be]
  rw [hform, decode_cons20]
  have hrest : (u16be count ++ (encFields t.fields ++ junk)).length
      = 2 + ((encFields t.fields).length + junk.length) := by simp [u16be]; omega
  have hcond : 0 < ds / 16777216 % 256 * 16777216 + ds / 65536 % 256 * 65536
      + ds / 256 % 256 * 256 + ds % 256
      ∧ 2 ≤ (u16be count ++ (encFields t.fields ++ junk)).length := by
    constructor
    · omega
    · rw [hrest]; omega
  rw [if_pos hcond]
  have hcount : readU16 (u16be count ++ (encFields t.fields ++ junk)) 0 = count := by
    have h0 : byte (u16be count ++ (encFields t.fields ++ junk)) 0 = count / 256 % 256 := rfl
    have h1 : byte (u16be count ++ (encFields t.fields ++ junk)) 1 = count % 256 := rfl
    rw [readU16, h0, h1]
    omega
  rw [hcount]
  have hdropeq : (u16be count ++ (encFields t.fields ++ junk)).drop 2
      = encFields t.fields ++ junk := by
    simp [u16be]
  have hfieldswf : ∀ f ∈ t.fields, f.field_type < 65536 ∧ f.data.length ≤ 65535 := by
    intro f hf
    exact ⟨(hfields f hf).1, (hfields f hf).2.1⟩
  have hsplit : count = t.fields.length + (count - t.fields.length) := by omega
  have hparse := decode_fields_append junk t.fields hfieldswf
    (u16be count ++ (encFields t.fields ++ junk)) 2 (count - t.fields.length)
    (by rw [hrest]; omega) hdropeq
  rw [← hsplit] at hparse
  rw [hparse]
  have hdropJ : (u16be count ++ (encFields t.fields ++ junk)).drop
      (2 + (encFields t.fields).length) = junk := by
    have h1 : (u16be count ++ (encFields t.fields ++ junk)).drop (2 + (encFields t.fields).length)
        = (((u16be count ++ (encFields t.fields ++ junk)).drop 2).drop (encFields t.fields).length) := by
      rw [List.drop_drop]
    rw [h1, hdropeq, List.drop_left]
  have hstop : decode_fields (u16be count ++ (encFields t.fields ++ junk))
      (2 + (encFields t.fields).length) (count - t.fields.length) = [] := by
    apply decode_fields_stop
    have hb2 : byte (u16be count ++ (encFields t.fields ++ junk))
        (2 + (encFields t.fields).length + 2) = byte junk 2 := by
      conv_rhs => rw [← hdropJ]
      rw [byte_drop]
    have hb3 : byte (u16be count ++ (encFields t.fields ++ junk))
        (2 + (encFields t.fields).length + 2 + 1) = byte junk (2 + 1) := by
      conv_rhs => rw [← hdropJ]
      rw [byte_drop]
    rw [readU16, hb2, hb3]
    rw [hrest]
    rw [readU16] at hj
    omega
  rw [hstop]
  obtain ⟨flags, is_reply, tt, id, err, fields⟩ := t
  simp only [List.append_nil, Except.ok.injEq, Transaction.mk.injEq]
  refine ⟨trivial, trivial, by simp at htt ⊢; omega, by simp at hid ⊢; omega,
    by simp at herr ⊢; omega, trivial⟩

/-- C5: `decode` is permissive.  (1) Any buffer of at least 20 bytes whose
`data_size` header word is zero decodes successfully to a frame with no
fields.  (2) Any frame buffer carrying a header with nonzero `data_size`, a
declared field count at least the number of complete fields present, those
complete fields, and a truncated remnant (its 4-byte field header or its
declared payload overruns the buffer) decodes successfully to exactly the
complete fields: the truncated trailing field stops iteration without
failing the frame. -/
theorem c5_permissive_decode :
    (∀ data : List Nat, TRANSACTION_HEADER_SIZE ≤ data.length → readU32 data 16 = 0 →
      Transaction.decode data
        = Except.ok ⟨byte data 0, byte data 1, readU16 data 2, readU32 data 4,
            readU32 data 8, []⟩)
    ∧ (∀ (t : Transaction) (count : Nat) (junk : List Nat), t.WF →
        t.calculate_data_size ≠ 0 → t.fields.length ≤ count → count ≤ 65535 →
        junk.length < 4 + readU16 junk 2 →
        Transaction.decode (frameWithJunk t count junk) = Except.ok t) := by
  constructor
  · intro data h20 h0
    have h20' : 20 ≤ data.length := h20
    unfold Transaction.decode
    rw [if_neg (by simp [TRANSACTION_HEADER_SIZE]; omega)]
    dsimp only
    rw [if_neg (by simp [h0])]
  · intro t count junk hwf hds hc1 hc2 hj
    exact decode_frameWithJunk t count junk hwf hds hc1 hc2 hj

theorem c5_permissive_decode_witness :
    (Transaction.decode (List.replicate 20 0) = Except.ok ⟨0, 0, 0, 0, 0, []⟩)
    ∧ Transaction.decode
        (frameWithJunk ⟨0, 0, 107, 1, 0, [⟨102, [65]⟩]⟩ 3 [0, 101, 0, 200, 7])
        = Except.ok ⟨0, 0, 107, 1, 0, [⟨102, [65]⟩]⟩ := by
  constructor
  · have h := c5_permissive_decode.1 (List.replicate 20 0) (by decide) (by decide)
    rw [h]
    rfl
  · exact c5_permissive_decode.2 ⟨0, 0, 107, 1, 0, [⟨102, [65]⟩]⟩ 3 [0, 101, 0, 200, 7]
      (by decide) (by decide) (by decide) (by decide) (by decide)

/-! ## Claim C10 — totality of decode -/

/-- C10: `Transaction::decode` is total on buffers of at least 20 bytes —
it returns `Ok` for every such buffer regardless of content — and the only
error it returns, on shorter buffers, is "Transaction data too short". -/
theorem c10_decode_total (data : List Nat) :
    ((∃ t, Transaction.decode data = Except.ok t) ↔ TRANSACTION_HEADER_SIZE ≤ data.length)
    ∧ (data.length < TRANSACTION_HEADER_SIZE →
        Transaction.decode data = Except.error "Transaction data too short") := by
  constructor
  · constructor
    · rintro ⟨t, ht⟩
      by_contra hlt
      unfold Transaction.decode at ht
      rw [if_pos (by omega)] at ht
      simp at ht
    · intro h
      unfold Transaction.decode
      rw [if_neg (by omega)]
      exact ⟨_, rfl⟩
  · intro h
    unfold Transaction.decode
    rw [if_pos h]

theorem c10_decode_total_witness :
    (∃ t, Transaction.decode (List.replicate 20 7) = Except.ok t) ∧
      Transaction.decode [1, 2, 3] = Except.error "Transaction data too short" :=
  ⟨(c10_decode_total (List.replicate 20 7)).1.mpr (by decide),
    (c10_decode_total [1, 2, 3]).2 (by decide)⟩

/-! ## Claim C9 — tracker separator filter

Names are modelled as their decoded character sequence (code points).  Byte
`0x2D` is the only byte that decodes to `'-'` under both the Mac Roman
decoding and the lossy-UTF-8 fallback used in tracker.rs, and a string
consisting solely of dashes has UTF-8 byte length (`name.len()`) equal to
its character count, so the dash test and the length test transfer
faithfully to this representation. -/

/-- The separator test of `TrackerClient::fetch_servers` (tracker.rs line
193): `name.chars().all(|c| c == '-') && name.len() > 3`. -/
def is_separator (name : List Nat) : Bool :=
  name.all (fun c => c == 45) && decide (3 < name.length)

/-- The per-entry accumulation of tracker.rs lines 190-204: each parsed
entry is pushed onto the returned server list unless `is_separator` holds
of its name (entries reduced to their names; the other entry fields do not
participate in the filter). -/
def filter_servers (entries : List (List Nat)) : List (List Nat) :=
  entries.filter (fun name => ! is_separator name)

theorem is_separator_iff (name : List Nat) :
    is_separator name = true ↔ (∀ c ∈ name, c = 45) ∧ 3 < name.length := by
  simp [is_separator, List.all_eq_true]

/-- C9, counterexample: the entry named `"---"` (exactly three dashes)
satisfies the claim's exclusion condition ("three or more dashes and
nothing else"), yet the code keeps it: the filter requires `name.len() > 3`,
i.e. four or more dashes. -/
theorem c9_separator_counterexample :
    (∀ c ∈ ([45, 45, 45] : List Nat), c = 45) ∧ 3 ≤ ([45, 45, 45] : List Nat).length ∧
      filter_servers [[45, 45, 45]] = [[45, 45, 45]] := by
  decide

/-- C9 (amended): a tracker entry is excluded from the returned server list
exactly when its decoded name consists of MORE THAN three dash characters
(four or more) and nothing else; all other entries are included. -/
theorem c9_separator_filter_amended (entries : List (List Nat)) (name : List Nat) :
    name ∈ filter_servers entries
      ↔ name ∈ entries ∧ ¬ ((∀ c ∈ name, c = 45) ∧ 3 < name.length) := by
  rw [filter_servers, List.mem_filter]
  constructor
  · rintro ⟨hm, hk⟩
    refine ⟨hm, fun hsep => ?_⟩
    rw [Bool.not_eq_true', ← Bool.not_eq_true] at hk
    exact hk ((is_separator_iff name).2 hsep)
  · rintro ⟨hm, hks⟩
    refine ⟨hm, ?_⟩
    rw [Bool.not_eq_true', ← Bool.not_eq_true]
    intro hsep
    exact hks ((is_separator_iff name).1 hsep)

theorem c9_separator_filter_amended_witness :
    ([45, 45, 45] : List Nat) ∈ filter_servers [[45, 45, 45], [45, 45, 45, 45], [104, 105]] ∧
      ([45, 45, 45, 45] : List Nat) ∉ filter_servers [[45, 45, 45], [45, 45, 45, 45], [104, 105]] :=
  ⟨(c9_separator_filter_amended [[45, 45, 45], [45, 45, 45, 45], [104, 105]] [45, 45, 45]).2
      ⟨by decide, by decide⟩,
    fun h => by
      have := (c9_separator_filter_amended
        [[45, 45, 45], [45, 45, 45, 45], [104, 105]] [45, 45, 45, 45]).1 h
      exact this.2 (by decide)⟩

/-! ## Claim C4 — transaction-ID counter

The counter is an `AtomicU32` initialized to 1 (`HotlineClient::new`,
mod.rs line 87).  `next_transaction_id` (mod.rs 104-106) performs
`fetch_add(1, SeqCst)`: it returns the previous value and stores the
wrapping successor.  The keep-alive loop performs the identical
`fetch_add(1, SeqCst)` on the same shared counter (mod.rs line 746), so the
session's issued IDs — from whichever caller — form the orbit of this step
function from the initial state. -/

/-- `fetch_add(1)` on the `AtomicU32`: (returned id, new counter state). -/
def next_transaction_id (counter : Nat) : Nat × Nat :=
  (counter, (counter + 1) % 4294967296)

/-- `AtomicU32::new(1)` in `HotlineClient::new`. -/
def initial_transaction_counter : Nat := 1

/-- Counter state after `k` issuances. -/
def counter_after : Nat → Nat
  | 0 => initial_transaction_counter
  | k + 1 => (next_transaction_id (counter_after k)).2

/-- The `k`-th transaction ID issued in a session (0-based). -/
def issued_id (k : Nat) : Nat := (next_transaction_id (counter_after k)).1

theorem counter_after_eq (k : Nat) : counter_after k = (1 + k) % 4294967296 := by
  induction k with
  | zero => rfl
  | succ k ih =>
    rw [counter_after, next_transaction_id, ih]
    dsimp only
    omega

theorem issued_id_eq (k : Nat) : issued_id k = (1 + k) % 4294967296 := by
  rw [issued_id, next_transaction_id, counter_after_eq]

/-- C4, counterexample: the ID sequence is NOT strictly increasing over an
unbounded session lifetime — the `AtomicU32` wraps, so the 2^32-th issuance
returns 0, below the first issuance's 1. -/
theorem c4_counter_counterexample :
    issued_id 0 = 1 ∧ issued_id 4294967295 = 0 ∧
      ¬ (∀ j k : Nat, j < k → issued_id j < issued_id k) := by
  have h0 : issued_id 0 = 1 := rfl
  have h1 : issued_id 4294967295 = 0 := by
    rw [issued_id_eq]
  refine ⟨h0, h1, fun h => ?_⟩
  have := h 0 4294967295 (by norm_num)
  rw [h0, h1] at this
  exact absurd this (by norm_num)

/-- C4 (amended): the first issued transaction ID is 1, and within the first
`2^32 - 1` issuances the IDs are exactly `1 + k`, strictly increasing (hence
pairwise distinct).  Beyond that the 32-bit counter wraps. -/
theorem c4_ids_monotonic_amended :
    issued_id 0 = 1 ∧
      (∀ k : Nat, k < 4294967295 → issued_id k = 1 + k) ∧
      (∀ j k : Nat, j < k → k < 4294967295 → issued_id j < issued_id k) := by
  have hval : ∀ k : Nat, k < 4294967295 → issued_id k = 1 + k := by
    intro k hk
    rw [issued_id_eq, Nat.mod_eq_of_lt (by omega)]
  refine ⟨rfl, hval, fun j k hjk hk => ?_⟩
  rw [hval j (by omega), hval k hk]
  omega

theorem c4_ids_monotonic_amended_witness :
    issued_id 0 = 1 ∧ issued_id 5 = 6 ∧ issued_id 2 < issued_id 7 :=
  ⟨c4_ids_monotonic_amended.1,
    c4_ids_monotonic_amended.2.1 5 (by norm_num),
    c4_ids_monotonic_amended.2.2 2 7 (by norm_num) (by norm_num)⟩

/-! ## Claim C6 — login failure messages

Strings produced by the Rust code are represented by their UTF-8 bytes.
`utf8Valid` models the validity check of Rust's standard
`String::from_utf8` (strict UTF-8: no overlong forms, no surrogates,
nothing above U+10FFFF), on which `TransactionField::to_string` relies. -/

/-- A UTF-8 continuation byte, `0x80..=0xBF`. -/
def utf8Cont (b : Nat) : Bool := decide (128 ≤ b ∧ b ≤ 191)

/-- Modelled from Rust's standard library: the byte-level validity test of
`String::from_utf8`. -/
def utf8Valid : List Nat → Bool
  | [] => true
  | b :: rest =>
    if b ≤ 0x7F then utf8Valid rest
    else if 0xC2 ≤ b ∧ b ≤ 0xDF then
      match rest with
      | c1 :: r => utf8Cont c1 && utf8Valid r
      | [] => false
    else if b = 0xE0 then
      match rest with
      | c1 :: c2 :: r => decide (0xA0 ≤ c1 ∧ c1 ≤ 0xBF) && utf8Cont c2 && utf8Valid r
      | _ => false
    else if (0xE1 ≤ b ∧ b ≤ 0xEC) ∨ b = 0xEE ∨ b = 0xEF then
      match rest with
      | c1 :: c2 :: r => utf8Cont c1 && utf8Cont c2 && utf8Valid r
      | _ => false
    else if b = 0xED then
      match rest with
      | c1 :: c2 :: r => decide (0x80 ≤ c1 ∧ c1 ≤ 0x9F) && utf8Cont c2 && utf8Valid r
      | _ => false
    else if b = 0xF0 then
      match rest with
      | c1 :: c2 :: c3 :: r =>
        decide (0x90 ≤ c1 ∧ c1 ≤ 0xBF) && utf8Cont c2 && utf8Cont c3 && utf8Valid r
      | _ => false
    else if 0xF1 ≤ b ∧ b ≤ 0xF3 then
      match rest with
      | c1 :: c2 :: c3 :: r => utf8Cont c1 && utf8Cont c2 && utf8Cont c3 && utf8Valid r
      | _ => false
    else if b = 0xF4 then
      match rest with
      | c1 :: c2 :: c3 :: r =>
        decide (0x80 ≤ c1 ∧ c1 ≤ 0x8F) && utf8Cont c2 && utf8Cont c3 && utf8Valid r
      | _ => false
    else false

/-- The UTF-8 bytes of an ASCII Lean string literal (used to transcribe the
English message constants of the source). -/
def strBytes (s : String) : List Nat := s.data.map Char.toNat

/-- `TransactionField::to_string` (transaction.rs lines 47-50) composed
with the `.ok()` applied at every call site: `String::from_utf8` keeps the
bytes verbatim when they are valid UTF-8; the error text is discarded by
`.ok()`. -/
def TransactionField.to_string (f : TransactionField) : Option (List Nat) :=
  if utf8Valid f.data then some f.data else none

/-- The error-message selection of `HotlineClient::login` (mod.rs lines
305-323): `ErrorText` decoded as UTF-8, else the `Data` field, else the
mapped message for codes 1/2/3, else the generic message. -/
def login_error_message (reply : Transaction) : List Nat :=
  (((reply.get_field ftErrorText).bind TransactionField.to_string).orElse
      (fun _ => (reply.get_field ftData).bind TransactionField.to_string)).getD
    (if reply.error_code = 1 then strBytes "Invalid login credentials or server rejected login"
     else if reply.error_code = 2 then strBytes "Server is full"
     else if reply.error_code = 3 then strBytes "Banned from server"
     else strBytes ("Error code: " ++ toString reply.error_code))

/-- The error check of `HotlineClient::login` on the decoded login reply
(mod.rs lines 305-338): a nonzero error code fails the login with the
selected message.  (On success the source goes on to cache server info and
transition the status; that IO continuation is outside this claim.) -/
def login_reply_result (reply : Transaction) : Except (List Nat) Unit :=
  if reply.error_code ≠ 0 then
    .error (strBytes "Login failed: " ++ login_error_message reply)
  else .ok ()

/-- A login reply with nonzero error code whose `ErrorText` field is
present but not valid UTF-8, and whose `Data` field is the text `"hi"`. -/
def badLoginReply : Transaction :=
  ⟨0, 1, ttLogin, 1, 1, [⟨ftErrorText, [255]⟩, ⟨ftData, [104, 105]⟩]⟩

/-- C6, counterexample: on `badLoginReply` the `ErrorText` field IS present
(claim: its content becomes the message), yet the source falls through to
the `Data` field (the claim does not mention this fallback), producing
`"hi"`, not the `ErrorText` payload and not the code-1 mapped message. -/
theorem c6_login_counterexample :
    (badLoginReply.get_field ftErrorText).isSome = true ∧
      badLoginReply.error_code ≠ 0 ∧
      login_error_message badLoginReply ≠ [255] ∧
      login_error_message badLoginReply
        ≠ strBytes "Invalid login credentials or server rejected login" ∧
      login_error_message badLoginReply = strBytes "hi" := by
  decide

/-- C6 (amended): for every login reply with a nonzero error code, the
login fails with a `Login failed:` error whose message is: the
server-provided `ErrorText` field when present AND valid UTF-8; otherwise
the `Data` field when present and valid UTF-8; otherwise the mapped message
for error codes 1, 2, 3 or the generic message for other codes. -/
theorem c6_login_failed_amended (reply : Transaction) (herr : reply.error_code ≠ 0) :
    login_reply_result reply
        = Except.error (strBytes "Login failed: " ++ login_error_message reply) ∧
      (∀ f, reply.get_field ftErrorText = some f → utf8Valid f.data = true →
        login_error_message reply = f.data) ∧
      (((reply.get_field ftErrorText).bind TransactionField.to_string) = none →
        ∀ f, reply.get_field ftData = some f → utf8Valid f.data = true →
          login_error_message reply = f.data) ∧
      (((reply.get_field ftErrorText).bind TransactionField.to_string) = none →
        ((reply.get_field ftData).bind TransactionField.to_string) = none →
        login_error_message reply =
          (if reply.error_code = 1 then strBytes "Invalid login credentials or server rejected login"
           else if reply.error_code = 2 then strBytes "Server is full"
           else if reply.error_code = 3 then strBytes "Banned from server"
           else strBytes ("Error code: " ++ toString reply.error_code))) := by
  refine ⟨by rw [login_reply_result, if_pos herr], ?_, ?_, ?_⟩
  · intro f hf hv
    rw [login_error_message, hf]
    simp [TransactionField.to_string, hv, Option.orElse]
  · intro hnone f hf hv
    rw [login_error_message, hnone, hf]
    simp [TransactionField.to_string, hv, Option.orElse]
  · intro h1 h2
    rw [login_error_message, h1]
    simp only [h2, Option.orElse, Option.getD]

theorem c6_login_failed_amended_witness :
    login_reply_result ⟨0, 1, 107, 1, 1, [⟨100, [110, 111]⟩]⟩
        = Except.error (strBytes "Login failed: "
            ++ login_error_message ⟨0, 1, 107, 1, 1, [⟨100, [110, 111]⟩]⟩) ∧
      login_error_message ⟨0, 1, 107, 1, 1, [⟨100, [110, 111]⟩]⟩ = [110, 111] := by
  have h := c6_login_failed_amended ⟨0, 1, 107, 1, 1, [⟨100, [110, 111]⟩]⟩ (by decide)
  exact ⟨h.1, h.2.1 ⟨100, [110, 111]⟩ (by decide) (by decide)⟩

/-! ## Claim C3 — file-transfer size fallback

`perform_file_transfer` (files.rs).  The secondary TCP stream is modelled
as the list `s` of bytes it will still deliver; once `s` is exhausted a
`read` yields one of three outcomes, captured by `StreamEnd`.  Rust's
`str::trim` (Unicode white space) is modelled on the ASCII white-space
bytes, which is exhaustive for the 4-byte fork tags compared against
`"DATA"`/`"INFO"`/`"MACR"`. -/

def isWhitespaceByte (b : Nat) : Bool := decide (b = 32 ∨ (9 ≤ b ∧ b ≤ 13))

/-- `str::trim` on a byte string. -/
def trimBytes (s : List Nat) : List Nat :=
  ((s.dropWhile isWhitespaceByte).reverse.dropWhile isWhitespaceByte).reverse

/-- The fork-size decision of `perform_file_transfer` (files.rs lines
313-342): given the fork header's `data_size`, the fork type tag, and the
caller-supplied `expected_size`, produce `(actual_size, read_until_eof)` or
fail outright on the two sentinel sizes.  (The interpolated English of the
sentinel error message is abbreviated to its leading clause.) -/
def file_size_decision (data_size : Nat) (fork_type : List Nat) (expected_size : Nat) :
    Except (List Nat) (Nat × Bool) :=
  if data_size = 0 ∧ trimBytes fork_type = strBytes "DATA" ∧ 0 < expected_size then
    if expected_size = 2147483648 ∨ expected_size = 2161946800 then
      .error (strBytes "File size from file list appears to be corrupted (suspicious round number)")
    else
      .ok (expected_size, decide (2000000000 < expected_size))
  else
    .ok (data_size, false)

/-- What `transfer_stream.read` yields once the modelled stream is
exhausted: `Ok(0)` (clean EOF), `Err` of kind `UnexpectedEof`, or another
read error. -/
inductive StreamEnd where
  | cleanEof
  | unexpectedEof
  | otherError
  deriving DecidableEq, Repr

/-- The read-until-EOF loop of `perform_file_transfer` (files.rs lines
366-399): 64 KiB chunk reads accumulated until EOF; an `UnexpectedEof`
error after at least one byte has been read breaks the loop successfully,
any other error (or `UnexpectedEof` with nothing read) fails. -/
def read_to_eof_loop (s : List Nat) (endk : StreamEnd) (bytes_read : Nat) :
    Except (List Nat) (List Nat) :=
  if _h : s = [] then
    match endk with
    | .cleanEof => .ok []
    | .unexpectedEof =>
      if 0 < bytes_read then .ok []
      else .error (strBytes "Failed to read fork data")
    | .otherError => .error (strBytes "Failed to read fork data")
  else
    let n := min 65536 s.length
    (read_to_eof_loop (s.drop n) endk (bytes_read + n)).map (fun rest => s.take n ++ rest)
  termination_by s.length
  decreasing_by
    simp only [List.length_drop]
    have hpos : 0 < s.length := List.length_pos.2 _h
    omega

theorem read_to_eof_loop_ok :
    ∀ (k : Nat) (s : List Nat) (endk : StreamEnd) (br : Nat), s.length = k →
      (endk = .cleanEof ∨ (endk = .unexpectedEof ∧ 0 < br + s.length)) →
      read_to_eof_loop s endk br = .ok s := by
  intro k
  induction k using Nat.strong_induction_on with
  | _ k ih =>
    intro s endk br hk h
    by_cases hs : s = []
    · subst hs
      rw [read_to_eof_loop.eq_def, dif_pos rfl]
      rcases h with rfl | ⟨rfl, hbr⟩
      · rfl
      · simp only [List.length_nil, Nat.add_zero] at hbr
        rw [if_pos hbr]
    · rw [read_to_eof_loop.eq_def, dif_neg hs]
      have hpos : 0 < s.length := List.length_pos.2 hs
      have hrec := ih (s.drop (min 65536 s.length)).length
        (by simp only [List.length_drop]; omega)
        (s.drop (min 65536 s.length)) endk (br + min 65536 s.length) rfl
        (by
          rcases h with rfl | ⟨rfl, _⟩
          · exact Or.inl rfl
          · refine Or.inr ⟨rfl, ?_⟩
            simp only [List.length_drop]
            omega)
      dsimp only
      rw [hrec]
      simp [Except.map, List.take_append_drop]

/-- C3, counterexample: with caller-supplied expected size exactly
2,147,483,648 and a zero DATA fork header, `perform_file_transfer` does NOT
enter read-until-EOF mode — it rejects the transfer outright as a
"suspicious round number". -/
theorem c3_corrupt_size_counterexample :
    file_size_decision 0 (strBytes "DATA") 2147483648
      = Except.error
          (strBytes "File size from file list appears to be corrupted (suspicious round number)") := by
  rfl

/-- C3 (amended): when the DATA fork header declares size 0 and the
caller-supplied expected size exceeds 2,000,000,000 but is NOT one of the
two rejected sentinels (2,147,483,648 and 2,161,946,800), the transfer
enters read-until-EOF mode, and the loop returns exactly the bytes streamed
before EOF without error — also when the stream ends in an unexpected-EOF
error, provided at least one byte was streamed. -/
theorem c3_read_until_eof_amended (expected : Nat) (s : List Nat) (endk : StreamEnd)
    (hbig : 2000000000 < expected)
    (hs1 : expected ≠ 2147483648) (hs2 : expected ≠ 2161946800)
    (hend : endk = .cleanEof ∨ (endk = .unexpectedEof ∧ s ≠ [])) :
    file_size_decision 0 (strBytes "DATA") expected = Except.ok (expected, true) ∧
      read_to_eof_loop s endk 0 = Except.ok s := by
  constructor
  · rw [file_size_decision, if_pos ⟨rfl, rfl, by omega⟩, if_neg (by tauto)]
    simp [hbig]
  · refine read_to_eof_loop_ok s.length s endk 0 rfl ?_
    rcases hend with rfl | ⟨rfl, hne⟩
    · exact Or.inl rfl
    · exact Or.inr ⟨rfl, by have := List.length_pos.2 hne; omega⟩

theorem c3_read_until_eof_amended_witness :
    file_size_decision 0 (strBytes "DATA") 2100000000 = Except.ok (2100000000, true) ∧
      read_to_eof_loop [7, 8, 9] StreamEnd.unexpectedEof 0 = Except.ok [7, 8, 9] :=
  c3_read_until_eof_amended 2100000000 [7, 8, 9] StreamEnd.unexpectedEof
    (by norm_num) (by norm_num) (by norm_num) (Or.inr ⟨rfl, by decide⟩)

/-! ## Claim C8 — banner download -/

/-- The 16-byte HTXF handshake written by `download_banner_raw` (files.rs
lines 583-587): `"HTXF"`, the 32-bit reference number, a zero data-size
word, four reserved zero bytes. -/
def download_banner_raw_handshake (reference_number : Nat) : List Nat :=
  FILE_TRANSFER_ID ++ u32be reference_number ++ u32be 0 ++ u32be 0

/-- The raw banner read loop of `download_banner_raw` (files.rs lines
604-620): `read_exact` of `min(remaining, 65536)` bytes per iteration until
`transfer_size` bytes are accumulated — no FILP envelope is parsed. -/
def banner_read_loop (s : List Nat) (transfer_size bytes_read : Nat) :
    Except (List Nat) (List Nat) :=
  if _h : bytes_read < transfer_size then
    let to_read := min (transfer_size - bytes_read) 65536
    if s.length < to_read then .error (strBytes "Failed to read banner data")
    else
      (banner_read_loop (s.drop to_read) transfer_size (bytes_read + to_read)).map
        (fun rest => s.take to_read ++ rest)
  else .ok []
  termination_by transfer_size - bytes_read
  decreasing_by
    omega

theorem banner_read_loop_ok :
    ∀ (k : Nat) (s : List Nat) (transfer_size bytes_read : Nat),
      transfer_size - bytes_read = k → transfer_size - bytes_read ≤ s.length →
      banner_read_loop s transfer_size bytes_read
        = .ok (s.take (transfer_size - bytes_read)) := by
  intro k
  induction k using Nat.strong_induction_on with
  | _ k ih =>
    intro s transfer_size bytes_read hk hlen
    by_cases hbr : bytes_read < transfer_size
    · rw [banner_read_loop.eq_def, dif_pos hbr]
      dsimp only
      have hto1 : 1 ≤ min (transfer_size - bytes_read) 65536 := by omega
      have htole : min (transfer_size - bytes_read) 65536 ≤ transfer_size - bytes_read := by
        omega
      rw [if_neg (by omega)]
      have hrec := ih (transfer_size - (bytes_read + min (transfer_size - bytes_read) 65536))
        (by omega) (s.drop (min (transfer_size - bytes_read) 65536)) transfer_size
        (bytes_read + min (transfer_size - bytes_read) 65536) rfl
        (by simp only [List.length_drop]; omega)
      rw [hrec]
      have harith : transfer_size - bytes_read
          = min (transfer_size - bytes_read) 65536
            + (transfer_size - (bytes_read + min (transfer_size - bytes_read) 65536)) := by
        omega
      conv_rhs => rw [harith, List.take_add]
      simp [Except.map]
    · rw [banner_read_loop.eq_def, dif_neg hbr]
      have : transfer_size - bytes_read = 0 := by omega
      rw [this, List.take_zero]

/-- C8: `download_banner_raw` writes the 16-byte HTXF handshake — the
`"HTXF"` magic, the 32-bit reference number, and two 32-bit zero words —
and then reads exactly `transfer_size` raw bytes from the transfer stream
(no FILP envelope is parsed), returning a byte vector of that exact
length. -/
theorem c8_banner_raw_download (reference_number transfer_size : Nat) (s : List Nat)
    (h : transfer_size ≤ s.length) :
    download_banner_raw_handshake reference_number
        = strBytes "HTXF" ++ u32be reference_number ++ [0, 0, 0, 0, 0, 0, 0, 0] ∧
      (download_banner_raw_handshake reference_number).length = 16 ∧
      banner_read_loop s transfer_size 0 = Except.ok (s.take transfer_size) ∧
      (s.take transfer_size).length = transfer_size := by
  refine ⟨?_, ?_, ?_, ?_⟩
  · rw [download_banner_raw_handshake]
    rfl
  · simp [download_banner_raw_handshake, FILE_TRANSFER_ID, u32be]
  · have := banner_read_loop_ok (transfer_size - 0) s transfer_size 0 rfl (by omega)
    simpa using this
  · rw [List.length_take]
    omega

theorem c8_banner_raw_download_witness :
    download_banner_raw_handshake 42
        = strBytes "HTXF" ++ u32be 42 ++ [0, 0, 0, 0, 0, 0, 0, 0] ∧
      (download_banner_raw_handshake 42).length = 16 ∧
      banner_read_loop [5, 6, 7, 8] 3 0 = Except.ok [5, 6, 7] ∧
      (([5, 6, 7, 8] : List Nat).take 3).length = 3 := by
  have h := c8_banner_raw_download 42 3 [5, 6, 7, 8] (by norm_num)
  exact ⟨h.1, h.2.1, by rw [h.2.2.1]; rfl, h.2.2.2⟩

/-! ## Claim C2 — reply fan-out in the receive loop

The reply-handling branch of `start_receive_loop` (mod.rs lines 532-586).
The pending-reply table (`HashMap<u32, Sender<Transaction>>`) and the
file-list-path memo (`HashMap<u32, Vec<String>>`) are modelled as
association lists with replace-on-insert discipline; the one-shot channel
send to a waiting caller is recorded in the `delivered` component.  Lossy
string decoding (`String::from_utf8_lossy`) keeps the raw bytes: it never
fails, so parse success is unaffected. -/

/-- `HashMap::get` on the association-list model. -/
def alLookup {α : Type} (m : List (Nat × α)) (k : Nat) : Option α :=
  (m.find? (fun p => p.1 == k)).map Prod.snd

/-- `HashMap::remove` on the association-list model. -/
def alRemove {α : Type} (m : List (Nat × α)) (k : Nat) : List (Nat × α) :=
  m.filter (fun p => ! (p.1 == k))

/-- `HashMap::insert` on the association-list model (replaces any previous
binding). -/
def alInsert {α : Type} (m : List (Nat × α)) (k : Nat) (v : α) : List (Nat × α) :=
  (k, v) :: alRemove m k

/-- `HotlineClient::parse_user_info` (users.rs lines 36-60):
`(user_id, username, icon_id, flags)`. -/
def parse_user_info (data : List Nat) : Except (List Nat) (Nat × List Nat × Nat × Nat) :=
  if data.length < 8 then .error (strBytes "UserNameWithInfo data too short")
  else
    let user_id := readU16 data 0
    let icon_id := readU16 data 2
    let flags := readU16 data 4
    let name_len := readU16 data 6
    if data.length < 8 + name_len then
      .error (strBytes "UserNameWithInfo username data too short")
    else .ok (user_id, (data.drop 8).take name_len, icon_id, flags)

/-- `FileInfo` (mod.rs lines 39-46), strings as raw bytes. -/
structure FileInfo where
  name : List Nat
  size : Nat
  is_folder : Bool
  file_type : List Nat
  creator : List Nat
  deriving DecidableEq, Repr

/-- `HotlineClient::parse_file_info` (files.rs lines 461-498). -/
def parse_file_info (data : List Nat) : Except (List Nat) FileInfo :=
  if data.length < 20 then .error (strBytes "FileNameWithInfo data too short")
  else
    let file_type := data.take 4
    let creator := (data.drop 4).take 4
    let size := readU32 data 8
    let name_len := readU16 data 18
    if data.length < 20 + name_len then
      .error (strBytes "FileNameWithInfo name data too short")
    else
      .ok { name := (data.drop 20).take name_len, size := size,
            is_folder := trimBytes file_type == strBytes "fldr",
            file_type := file_type, creator := creator }

/-- The two `HotlineEvent`s the reply branch can emit: one `UserJoined` per
parsed `UserNameWithInfo` field, one `FileList` for the batched files. -/
inductive ReplyEvent where
  | userJoined (user_id : Nat) (user_name : List Nat) (icon : Nat) (flags : Nat)
  | fileList (files : List FileInfo) (path : List (List Nat))
  deriving DecidableEq, Repr

def isFileListEvent : ReplyEvent → Bool
  | .fileList _ _ => true
  | _ => false

/-- One step of the field scan in the reply branch (mod.rs lines 539-559):
accumulates `(has_user_info, has_file_info, files, emitted user events)`.
A matching tag sets its flag even when the payload fails to parse. -/
def scan_reply_field (acc : Bool × Bool × List FileInfo × List ReplyEvent)
    (field : TransactionField) : Bool × Bool × List FileInfo × List ReplyEvent :=
  if field.field_type == ftUserNameWithInfo then
    match parse_user_info field.data with
    | .ok (user_id, user_name, icon, flags) =>
      (true, acc.2.1, acc.2.2.1, acc.2.2.2 ++ [.userJoined user_id user_name icon flags])
    | .error _ => (true, acc.2.1, acc.2.2.1, acc.2.2.2)
  else if field.field_type == ftFileNameWithInfo then
    match parse_file_info field.data with
    | .ok fi => (acc.1, true, acc.2.2.1 ++ [fi], acc.2.2.2)
    | .error _ => (acc.1, true, acc.2.2.1, acc.2.2.2)
  else acc

/-- The outcome of dispatching one reply frame: emitted events, the reply
(if any) delivered to a waiting caller's slot, and the two tables after. -/
structure ReplyDispatch where
  events : List ReplyEvent
  delivered : Option (Nat × Transaction)
  pending : List (Nat × Nat)
  file_list_paths : List (Nat × List (List Nat))
  deriving DecidableEq, Repr

/-- The `transaction.is_reply == 1` branch of the receive loop (mod.rs
lines 532-582): scan the fields; if any `FileNameWithInfo` was seen, emit
one `FileList` tagged with the memoized path and drop the memo entry; only
when neither `UserNameWithInfo` nor `FileNameWithInfo` occurred, remove the
pending slot and deliver the reply to it. -/
def handle_reply (t : Transaction) (pending : List (Nat × Nat))
    (file_list_paths : List (Nat × List (List Nat))) : ReplyDispatch :=
  let scan := t.fields.foldl scan_reply_field (false, false, [], [])
  let has_user_info := scan.1
  let has_file_info := scan.2.1
  let files := scan.2.2.1
  let user_events := scan.2.2.2
  let fileOut :=
    if has_file_info then
      let path := (alLookup file_list_paths t.id).getD []
      ([ReplyEvent.fileList files path], alRemove file_list_paths t.id)
    else ([], file_list_paths)
  if !has_user_info && !has_file_info then
    match alLookup pending t.id with
    | some _ =>
      { events := user_events ++ fileOut.1, delivered := some (t.id, t),
        pending := alRemove pending t.id, file_list_paths := fileOut.2 }
    | none =>
      { events := user_events ++ fileOut.1, delivered := none,
        pending := pending, file_list_paths := fileOut.2 }
  else
    { events := user_events ++ fileOut.1, delivered := none,
      pending := pending, file_list_paths := fileOut.2 }

theorem scan_step_fst (acc : Bool × Bool × List FileInfo × List ReplyEvent)
    (f : TransactionField) :
    (scan_reply_field acc f).1 = (acc.1 || (f.field_type == ftUserNameWithInfo)) := by
  by_cases h1 : (f.field_type == ftUserNameWithInfo) = true
  · rw [scan_reply_field, if_pos h1, h1]
    cases parse_user_info f.data <;> simp
  · rw [scan_reply_field, if_neg h1, Bool.not_eq_true] at *
    rw [h1, Bool.or_false]
    by_cases h2 : (f.field_type == ftFileNameWithInfo) = true
    · rw [if_pos h2]
      cases parse_file_info f.data <;> simp
    · rw [if_neg h2]

theorem scan_step_snd (acc : Bool × Bool × List FileInfo × List ReplyEvent)
    (f : TransactionField) :
    (scan_reply_field acc f).2.1 = (acc.2.1 || (f.field_type == ftFileNameWithInfo)) := by
  by_cases h1 : (f.field_type == ftUserNameWithInfo) = true
  · have hne : (f.field_type == ftFileNameWithInfo) = false := by
      simp only [beq_iff_eq] at h1 ⊢
      simp [h1, ftUserNameWithInfo, ftFileNameWithInfo]
    rw [scan_reply_field, if_pos h1, hne, Bool.or_false]
    cases parse_user_info f.data <;> simp
  · rw [scan_reply_field, if_neg h1]
    by_cases h2 : (f.field_type == ftFileNameWithInfo) = true
    · rw [if_pos h2, h2]
      cases parse_file_info f.data <;> simp
    · rw [if_neg h2, Bool.not_eq_true] at *
      rw [h2, Bool.or_false]

theorem scan_step_events (acc : Bool × Bool × List FileInfo × List ReplyEvent)
    (f : TransactionField) :
    ∀ e ∈ (scan_reply_field acc f).2.2.2, e ∈ acc.2.2.2 ∨ isFileListEvent e = false := by
  intro e he
  rw [scan_reply_field] at he
  by_cases h1 : (f.field_type == ftUserNameWithInfo) = true
  · rw [if_pos h1] at he
    cases hp : parse_user_info f.data with
    | ok v =>
      obtain ⟨uid, uname, icon, flags⟩ := v
      rw [hp] at he
      simp only [List.mem_append, List.mem_singleton] at he
      rcases he with he | rfl
      · exact Or.inl he
      · exact Or.inr rfl
    | error _ =>
      rw [hp] at he
      exact Or.inl he
  · rw [if_neg h1] at he
    by_cases h2 : (f.field_type == ftFileNameWithInfo) = true
    · rw [if_pos h2] at he
      cases hp : parse_file_info f.data with
      | ok fi => rw [hp] at he; exact Or.inl he
      | error _ => rw [hp] at he; exact Or.inl he
    · rw [if_neg h2] at he
      exact Or.inl he

theorem scan_spec (fs : List TransactionField) :
    ∀ acc : Bool × Bool × List FileInfo × List ReplyEvent,
      (fs.foldl scan_reply_field acc).1
          = (acc.1 || fs.any (fun f => f.field_type == ftUserNameWithInfo)) ∧
      (fs.foldl scan_reply_field acc).2.1
          = (acc.2.1 || fs.any (fun f => f.field_type == ftFileNameWithInfo)) ∧
      (∀ e ∈ (fs.foldl scan_reply_field acc).2.2.2,
          e ∈ acc.2.2.2 ∨ isFileListEvent e = false) := by
  induction fs with
  | nil => intro acc; exact ⟨by simp, by simp, fun e he => Or.inl he⟩
  | cons f fs ih =>
    intro acc
    rw [List.foldl_cons]
    obtain ⟨ih1, ih2, ih3⟩ := ih (scan_reply_field acc f)
    refine ⟨?_, ?_, ?_⟩
    · rw [ih1, scan_step_fst, List.any_cons, Bool.or_assoc]
    · rw [ih2, scan_step_snd, List.any_cons, Bool.or_assoc]
    · intro e he
      rcases ih3 e he with hin | hfalse
      · exact scan_step_events acc f e hin
      · exact Or.inr hfalse

/-- C2: for every reply frame containing at least one `UserNameWithInfo` or
`FileNameWithInfo` field, the receive loop leaves the pending-reply table
untouched and delivers the reply to no waiting caller; and when a
`FileNameWithInfo` field is present it emits exactly one `FileList` event,
whose path is the one memoized under the frame's transaction id (empty if
none), and removes that memo entry. -/
theorem c2_reply_fanout (t : Transaction) (pending : List (Nat × Nat))
    (paths : List (Nat × List (List Nat)))
    (hfield : ∃ f ∈ t.fields,
      f.field_type = ftUserNameWithInfo ∨ f.field_type = ftFileNameWithInfo) :
    (handle_reply t pending paths).pending = pending ∧
      (handle_reply t pending paths).delivered = none ∧
      ((∃ f ∈ t.fields, f.field_type = ftFileNameWithInfo) →
        ((handle_reply t pending paths).events.filter isFileListEvent).length = 1 ∧
        (∃ files, (handle_reply t pending paths).events.filter isFileListEvent
            = [ReplyEvent.fileList files ((alLookup paths t.id).getD [])]) ∧
        (handle_reply t pending paths).file_list_paths = alRemove paths t.id) := by
  obtain ⟨h1, h2, h3⟩ := scan_spec t.fields (false, false, [], [])
  simp only [Bool.false_or] at h1 h2
  have hflag : (!(t.fields.foldl scan_reply_field (false, false, [], [])).1
      && !(t.fields.foldl scan_reply_field (false, false, [], [])).2.1) = false := by
    obtain ⟨f, hf, hty | hty⟩ := hfield
    · rw [h1]
      have : t.fields.any (fun f => f.field_type == ftUserNameWithInfo) = true :=
        List.any_eq_true.2 ⟨f, hf, by simp [hty]⟩
      rw [this]
      simp
    · rw [h2]
      have : t.fields.any (fun f => f.field_type == ftFileNameWithInfo) = true :=
        List.any_eq_true.2 ⟨f, hf, by simp [hty]⟩
      rw [this]
      simp
  have huser_only : ((t.fields.foldl scan_reply_field
      (false, false, [], [])).2.2.2.filter isFileListEvent) = [] := by
    rw [List.filter_eq_nil_iff]
    intro e he
    rcases h3 e he with hin | hfalse
    · exact absurd hin (List.not_mem_nil e)
    · simp [hfalse]
  rw [handle_reply]
  dsimp only
  rw [hflag, if_neg Bool.false_ne_true]
  refine ⟨rfl, rfl, fun hfile => ?_⟩
  have hhasfile : (t.fields.foldl scan_reply_field (false, false, [], [])).2.1 = true := by
    obtain ⟨f, hf, hty⟩ := hfile
    rw [h2]
    exact List.any_eq_true.2 ⟨f, hf, by simp [hty]⟩
  rw [hhasfile]
  dsimp only
  rw [if_pos rfl]
  refine ⟨?_, ?_, rfl⟩
  · rw [List.filter_append, huser_only, List.nil_append]
    rfl
  · refine ⟨(t.fields.foldl scan_reply_field (false, false, [], [])).2.2.1, ?_⟩
    rw [List.filter_append, huser_only, List.nil_append]
    rfl

theorem c2_reply_fanout_witness :
    (handle_reply ⟨0, 1, 200, 9, 0, [⟨200, List.replicate 20 0⟩]⟩ [(9, 0)]
        [(9, [[102, 111, 111]])]).pending = [(9, 0)] ∧
      (handle_reply ⟨0, 1, 200, 9, 0, [⟨200, List.replicate 20 0⟩]⟩ [(9, 0)]
        [(9, [[102, 111, 111]])]).delivered = none ∧
      ((handle_reply ⟨0, 1, 200, 9, 0, [⟨200, List.replicate 20 0⟩]⟩ [(9, 0)]
        [(9, [[102, 111, 111]])]).events.filter isFileListEvent).length = 1 := by
  have h := c2_reply_fanout ⟨0, 1, 200, 9, 0, [⟨200, List.replicate 20 0⟩]⟩ [(9, 0)]
    [(9, [[102, 111, 111]])] ⟨⟨200, List.replicate 20 0⟩, by decide, Or.inr rfl⟩
  exact ⟨h.1, h.2.1, (h.2.2 ⟨⟨200, List.replicate 20 0⟩, by decide, rfl⟩).1⟩

/-! ## Claim C7 — agreement acceptance

`HotlineClient::accept_agreement` (chat.rs lines 80-174; the reference
implementation in corrected_accept_agreement.rs lines 3-98 is behaviorally
identical).  The IO performed by the call is recorded as a `ClientAction`
trace; the reply wait's three possible outcomes (the 5-second timeout is a
real-time bound and is abstracted into the `timedOut` outcome) are the
parameter `outcome`. -/

/-- `Ok(Some(reply))`, `Ok(None)` (slot channel closed), or `Err(Elapsed)`
from `tokio::time::timeout(5s, rx.recv())`. -/
inductive ReplyOutcome where
  | received (reply : Transaction)
  | closed
  | timedOut
  deriving DecidableEq, Repr

/-- The observable steps `accept_agreement` takes against the shared
session state. -/
inductive ClientAction where
  | registerSlot (id : Nat)
  | writeFrame (frame : List Nat)
  | removeSlot (id : Nat)
  deriving DecidableEq, Repr

/-- The `Agreed` transaction built by `accept_agreement` (chat.rs lines
99-113): `UserName`, `UserIconId`, `Options = 0`. -/
def agreed_transaction (username : List Nat) (icon id : Nat) : Transaction :=
  ⟨0, 0, ttAgreed, id, 0,
    [⟨ftUserName, username⟩, ⟨ftUserIconId, u16be icon⟩, ⟨ftOptions, u16be 0⟩]⟩

/-- The frame built by `get_user_list` (users.rs lines 9-34):
`Transaction::new(id, GetUserNameList)`, no fields. -/
def user_list_transaction (id : Nat) : Transaction :=
  ⟨0, 0, ttGetUserNameList, id, 0, []⟩

/-- `accept_agreement` (chat.rs lines 80-174): build the `Agreed` frame,
insert the pending slot, write the frame, resolve the reply wait (all three
outcomes remove the slot and continue), then issue `GetUserNameList` in the
same call.  Returns (result, action trace, pending table after). -/
def accept_agreement (username : List Nat) (icon id userlist_id : Nat)
    (outcome : ReplyOutcome) (pending : List (Nat × Nat)) :
    Except (List Nat) Unit × List ClientAction × List (Nat × Nat) :=
  let transaction := agreed_transaction username icon id
  let encoded := transaction.encode
  -- slot inserted before the write (chat.rs lines 119-123)
  let pending1 := alInsert pending id 0
  let actions1 := [ClientAction.registerSlot id, ClientAction.writeFrame encoded]
  -- the three arms of the timeout match (chat.rs lines 146-163)
  let armsOut :=
    match outcome with
    | .received _ => (alRemove pending1 id, actions1 ++ [ClientAction.removeSlot id])
    | .closed => (alRemove pending1 id, actions1 ++ [ClientAction.removeSlot id])
    | .timedOut => (alRemove pending1 id, actions1 ++ [ClientAction.removeSlot id])
  -- `self.get_user_list()` in the same call (chat.rs line 171)
  (Except.ok (),
    armsOut.2 ++ [ClientAction.writeFrame (user_list_transaction userlist_id).encode],
    armsOut.1)

theorem alLookup_remove_self {α : Type} (m : List (Nat × α)) (k : Nat) :
    alLookup (alRemove m k) k = none := by
  rw [alLookup, alRemove]
  have hfind : ((m.filter fun p => ! (p.1 == k)).find? (fun p => p.1 == k)) = none := by
    rw [List.find?_eq_none]
    intro a ha
    have := (List.mem_filter.1 ha).2
    simp only [Bool.not_eq_true'] at this
    simp [this]
  rw [hfind]
  rfl

theorem alLookup_remove_ne {α : Type} (m : List (Nat × α)) (k j : Nat) (h : j ≠ k) :
    alLookup (alRemove m k) j = alLookup m j := by
  induction m with
  | nil => rfl
  | cons p m ih =>
    by_cases hk : (p.1 == k) = true
    · have hj : (p.1 == j) = false := by
        simp only [beq_iff_eq] at hk
        simp only [beq_eq_false_iff_ne]
        omega
      have hrm : alRemove (p :: m) k = alRemove m k := by
        simp [alRemove, List.filter_cons, hk]
      rw [hrm, ih, alLookup, alLookup,
        List.find?_cons_of_neg (p := fun q => q.1 == j) m (by simp [hj])]
    · have hk2 : (p.1 == k) = false := by rwa [Bool.not_eq_true] at hk
      have hrm : alRemove (p :: m) k = p :: alRemove m k := by
        simp [alRemove, List.filter_cons, hk2]
      rw [hrm]
      by_cases hj : (p.1 == j) = true
      · rw [alLookup, alLookup,
          List.find?_cons_of_pos (p := fun q => q.1 == j) (alRemove m k) hj,
          List.find?_cons_of_pos (p := fun q => q.1 == j) m hj]
      · rw [alLookup, alLookup,
          List.find?_cons_of_neg (p := fun q => q.1 == j) (alRemove m k) hj,
          List.find?_cons_of_neg (p := fun q => q.1 == j) m hj]
        exact ih

theorem alRemove_idem {α : Type} (m : List (Nat × α)) (k : Nat) :
    alRemove (alRemove m k) k = alRemove m k := by
  rw [alRemove, alRemove, List.filter_filter]
  congr 1
  funext a
  exact Bool.and_self _

theorem alRemove_insert_self {α : Type} (m : List (Nat × α)) (k : Nat) (v : α) :
    alRemove (alInsert m k v) k = alRemove m k := by
  rw [alInsert, alRemove, List.filter_cons]
  simp only [beq_self_eq_true, Bool.not_true, Bool.false_eq_true, if_false]
  rw [← alRemove, alRemove_idem]

/-- The pending table that `accept_agreement` leaves behind, in all three
reply outcomes: the slot inserted for the `Agreed` frame is removed again. -/
theorem accept_agreement_pending (username : List Nat) (icon id userlist_id : Nat)
    (outcome : ReplyOutcome) (pending : List (Nat × Nat)) :
    (accept_agreement username icon id userlist_id outcome pending).2.2
      = alRemove pending id := by
  cases outcome <;>
    · show alRemove (alInsert pending id 0) id = alRemove pending id
      exact alRemove_insert_self pending id 0

/-- C7: `accept_agreement` registers the pending slot before writing the
`Agreed` frame, succeeds (returns `Ok`) in all three reply outcomes —
reply received, channel closed, or timeout — removing the pending slot in
each case (other slots untouched), and issues a `GetUserNameList` request
in the same call after the agreement handling. -/
theorem c7_accept_agreement (username : List Nat) (icon id userlist_id : Nat)
    (outcome : ReplyOutcome) (pending : List (Nat × Nat)) :
    (accept_agreement username icon id userlist_id outcome pending).1 = Except.ok () ∧
      (accept_agreement username icon id userlist_id outcome pending).2.1
        = [ClientAction.registerSlot id,
           ClientAction.writeFrame (agreed_transaction username icon id).encode,
           ClientAction.removeSlot id,
           ClientAction.writeFrame (user_list_transaction userlist_id).encode] ∧
      alLookup (accept_agreement username icon id userlist_id outcome pending).2.2 id
        = none ∧
      (∀ k, k ≠ id →
        alLookup (accept_agreement username icon id userlist_id outcome pending).2.2 k
          = alLookup pending k) := by
  refine ⟨?_, ?_, ?_, ?_⟩
  · cases outcome <;> rfl
  · cases outcome <;> rfl
  · rw [accept_agreement_pending, alLookup_remove_self]
  · intro k hk
    rw [accept_agreement_pending, alLookup_remove_ne _ _ _ hk]

theorem c7_accept_agreement_witness :
    (accept_agreement [103] 191 4 5 ReplyOutcome.timedOut [(3, 0)]).1 = Except.ok () ∧
      (accept_agreement [103] 191 4 5 ReplyOutcome.timedOut [(3, 0)]).2.1
        = [ClientAction.registerSlot 4,
           ClientAction.writeFrame (agreed_transaction [103] 191 4).encode,
           ClientAction.removeSlot 4,
           ClientAction.writeFrame (user_list_transaction 5).encode] ∧
      alLookup (accept_agreement [103] 191 4 5 ReplyOutcome.timedOut [(3, 0)]).2.2 4
        = none ∧
      alLookup (accept_agreement [103] 191 4 5 ReplyOutcome.timedOut [(3, 0)]).2.2 3
        = alLookup [(3, 0)] 3 := by
  have h := c7_accept_agreement [103] 191 4 5 ReplyOutcome.timedOut [(3, 0)]
  exact ⟨h.1, h.2.1, h.2.2.1, h.2.2.2 3 (by norm_num)⟩

end Hotline
